import Mathlib

/-!
Verification of the `ion-accordion` component
(`src/core/src/components/accordion/accordion.tsx`).

The component is a four-state expand/collapse machine driven by a parent
accordion group. We embed the component instance as a record `Machine`
holding its fields together with the scheduling context it interacts with:
the set of pending animation-frame callbacks (`requestAnimationFrame`,
keyed by the handle the browser returns) and the set of pending
transition-end waits. Each private method of the class becomes a pure
function on `Machine`; the bodies of the scheduled callbacks become
`runFrame` / `runTransition`, fired by an explicit event step relation
(`step`), so that every interleaving of commands, frame callbacks and
transition resolutions is a plain list of events.
-/

set_option maxHeartbeats 1000000

namespace IonAccordion

/-- The four-valued state enum of the component. The source uses a
power-of-two encoding but never combines bits, so a plain sum type is the
faithful model. -/
inductive AccordionState
  | Collapsed
  | Collapsing
  | Expanded
  | Expanding
deriving DecidableEq, Repr

/-- The open-set exposed by the accordion group element: its `value`
property is either a single value (possibly null) or an array of values. -/
inductive GroupValue
  | single : Option String → GroupValue
  | multi : List String → GroupValue
deriving DecidableEq, Repr

/-- The membership test of `updateState`:
`Array.isArray(value) ? value.includes(accordionValue) : value === accordionValue`. -/
def shouldExpandFor (value : GroupValue) (accordionValue : String) : Bool :=
  match value with
  | .multi vs => vs.contains accordionValue
  | .single v => v == some accordionValue

/-- The accordion group element, as consumed by this component: its current
open-set `value` and its `animated` override. -/
structure Group where
  value : GroupValue
  animated : Bool
deriving DecidableEq, Repr

/-- The content element: its measured `offsetHeight` and its inline
`max-height` style (`none` when the property has been removed). -/
structure ContentEl where
  offsetHeight : Nat
  maxHeight : Option Nat
deriving DecidableEq, Repr

/-- The platform facts read by `shouldAnimate` on every call:
whether a `window` exists, the `prefers-reduced-motion` media query, and
the global `animated` config flag. The config module is outside `src/`;
its read `config.get` with default `true` is modelled as a plain boolean
supplied by the environment. -/
structure Env where
  hasWindow : Bool
  prefersReducedMotion : Bool
  configAnimated : Bool
deriving DecidableEq, Repr

/-- The bodies of the animation-frame callbacks scheduled by
`expandAccordion` and `collapseAccordion`: the outer and the nested inner
frame of each sequence. -/
inductive FrameTask
  | expandOuter
  | expandInner
  | collapseOuter
  | collapseInner
deriving DecidableEq, Repr

/-- The continuations after `await waitForTransition` in the two inner
frame bodies. -/
inductive TransTask
  | expandDone
  | collapseDone
deriving DecidableEq, Repr

/-- The component instance plus its scheduling context.
Fields up to `currentRaf` mirror the class fields; `pendingFrames` holds
the scheduled, not-yet-fired animation-frame callbacks keyed by handle;
`pendingTransitions` holds pending transition-end waits with their timeout
bound; `nextId` is the next fresh handle. `subscribed` records whether
`connectedCallback` attached the `ionValueChange` listener;
`nextSiblingValue` / `prevSiblingValue` give the `value` of the adjacent
`ion-accordion` structural sibling when one exists. -/
structure Machine where
  state : AccordionState
  isNext : Bool
  isPrevious : Bool
  value : String
  disabled : Bool
  readonly : Bool
  hasEl : Bool
  accordionGroupEl : Option Group
  subscribed : Bool
  contentEl : Option ContentEl
  contentElWrapperHeight : Option Nat
  nextSiblingValue : Option String
  prevSiblingValue : Option String
  currentRaf : Option Nat
  pendingFrames : List (Nat × FrameTask)
  pendingTransitions : List (Nat × Nat × TransTask)
  nextId : Nat
deriving DecidableEq, Repr

/-- `shouldAnimate`: false when there is no window, when the platform
prefers reduced motion, when the global config flag is false, or when the
enclosing group has `animated` false; true otherwise. Recomputed from the
environment on every call, exactly as in the source. -/
def shouldAnimate (env : Env) (accordionGroupEl : Option Group) : Bool :=
  if env.hasWindow = false then false
  else if env.prefersReducedMotion then false
  else if env.configAnimated = false then false
  else
    match accordionGroupEl with
    | some g => if g.animated = false then false else true
    | none => true

/-- `raf(cb)`: schedule a frame callback, returning the fresh handle. -/
def raf (t : FrameTask) (m : Machine) : Nat × Machine :=
  (m.nextId,
    { m with
      pendingFrames := m.pendingFrames ++ [(m.nextId, t)],
      nextId := m.nextId + 1 })

/-- `cancelAnimationFrame(id)`: drop the pending frame with this handle,
if it has not fired yet. -/
def cancelAnimationFrame (id : Nat) (m : Machine) : Machine :=
  { m with pendingFrames := m.pendingFrames.filter (fun p => !(p.1 == id)) }

/-- The guarded cancellation prologue shared by both commands:
`if (this.currentRaf !== undefined) cancelAnimationFrame(this.currentRaf)`. -/
def cancelCurrent (m : Machine) : Machine :=
  match m.currentRaf with
  | some id => cancelAnimationFrame id m
  | none => m

/-- Modelled from the spec: `transitionEndAsync(el, 2000)` comes from the
shared helpers module, which is not under `src/`. Per the spec it returns
a promise that resolves on the transition-end signal or after the given
timeout, whichever occurs first. We model the registration as a pending
resolution carrying the timeout bound and the continuation to run. -/
def transitionEndAsync (timeout : Nat) (t : TransTask) (m : Machine) : Machine :=
  { m with
    pendingTransitions := m.pendingTransitions ++ [(m.nextId, timeout, t)],
    nextId := m.nextId + 1 }

/-- Modelled from the spec: the time at which a `transitionEndAsync` wait
with the given timeout resolves, when the transition-end signal arrives at
time `signal` (or never, for `none`). -/
def transitionResolveTime (signal : Option Nat) (timeout : Nat) : Nat :=
  match signal with
  | some s => min s timeout
  | none => timeout

/-- `expandAccordion(initialUpdate)`. On the initial update, or when the
content element or its wrapper reference is not yet populated, the state
jumps to `Expanded`. When already `Expanded` the call returns before the
cancellation prologue. Otherwise it cancels `currentRaf` and either
schedules the outer expand frame — whose handle is discarded, faithful to
the source — or jumps to `Expanded` when animation is disabled. -/
def expandAccordion (initialUpdate : Bool) (env : Env) (m : Machine) : Machine :=
  if initialUpdate || m.contentEl.isNone || m.contentElWrapperHeight.isNone then
    { m with state := .Expanded }
  else if m.state == .Expanded then
    m
  else if shouldAnimate env (cancelCurrent m).accordionGroupEl then
    (raf .expandOuter (cancelCurrent m)).2
  else
    { cancelCurrent m with state := .Expanded }

/-- `collapseAccordion(initialUpdate)`. Mirror of `expandAccordion`,
except that here the handle of the outermost frame is recorded in
`currentRaf`. -/
def collapseAccordion (initialUpdate : Bool) (env : Env) (m : Machine) : Machine :=
  if initialUpdate || m.contentEl.isNone then
    { m with state := .Collapsed }
  else if m.state == .Collapsed then
    m
  else if shouldAnimate env (cancelCurrent m).accordionGroupEl then
    { (raf .collapseOuter (cancelCurrent m)).2 with
      currentRaf := some (raf .collapseOuter (cancelCurrent m)).1 }
  else
    { cancelCurrent m with state := .Collapsed }

/-- `contentEl.style.removeProperty('max-height')`. -/
def clearMaxHeight (m : Machine) : Machine :=
  match m.contentEl with
  | some ce => { m with contentEl := some { ce with maxHeight := none } }
  | none => m

/-- The body of each scheduled frame callback.
`expandOuter` sets the state to `Expanding` and schedules the inner expand
frame, recording that inner handle in `currentRaf`. `expandInner` measures
the wrapper height, starts the bounded transition wait, and sets
`max-height` to the measured value. `collapseOuter` measures the content
height, sets `max-height` to it, and schedules the nested collapse frame
— without recording its handle, faithful to the source. `collapseInner`
starts the bounded transition wait and sets the state to `Collapsing`. -/
def runFrame (t : FrameTask) (m : Machine) : Machine :=
  match t with
  | .expandOuter =>
      { (raf .expandInner { m with state := .Expanding }).2 with
        currentRaf := some (raf .expandInner { m with state := .Expanding }).1 }
  | .expandInner =>
      match m.contentEl, m.contentElWrapperHeight with
      | some ce, some contentHeight =>
          { transitionEndAsync 2000 .expandDone m with
            contentEl := some { ce with maxHeight := some contentHeight } }
      | _, _ => m
  | .collapseOuter =>
      match m.contentEl with
      | some ce =>
          (raf .collapseInner
            { m with contentEl := some { ce with maxHeight := some ce.offsetHeight } }).2
      | none => m
  | .collapseInner =>
      { transitionEndAsync 2000 .collapseDone m with state := .Collapsing }

/-- The continuation after `await waitForTransition`: set the terminal
state and remove the `max-height` override. -/
def runTransition (t : TransTask) (m : Machine) : Machine :=
  match t with
  | .expandDone => clearMaxHeight { m with state := .Expanded }
  | .collapseDone => clearMaxHeight { m with state := .Collapsed }

/-- `getNextSibling`: the next structural sibling when the element exists
and that sibling is an `ion-accordion`; we return its `value` directly. -/
def getNextSibling (m : Machine) : Option String :=
  if m.hasEl = false then none else m.nextSiblingValue

/-- `getPreviousSibling`: mirror of `getNextSibling`. -/
def getPreviousSibling (m : Machine) : Option String :=
  if m.hasEl = false then none else m.prevSiblingValue

/-- First half of the collapse-path flag update of `updateState`: set
`isPrevious` from whether the next structural sibling is in the open-set,
leaving the flag untouched when that sibling value is absent. -/
def setIsPreviousFromNext (value : GroupValue) (m : Machine) : Machine :=
  match getNextSibling m with
  | some nextAccordionValue =>
      { m with isPrevious := shouldExpandFor value nextAccordionValue }
  | none => m

/-- Second half of the collapse-path flag update of `updateState`: set
`isNext` from whether the previous structural sibling is in the open-set,
leaving the flag untouched when that sibling value is absent. -/
def setIsNextFromPrev (value : GroupValue) (m : Machine) : Machine :=
  match getPreviousSibling m with
  | some previousAccordionValue =>
      { m with isNext := shouldExpandFor value previousAccordionValue }
  | none => m

/-- The tail of the collapse path of `updateState`: set `isPrevious` from
the next structural sibling, then `isNext` from the previous structural
sibling — the deliberately swapped mapping of the source. -/
def applySiblingFlags (value : GroupValue) (m : Machine) : Machine :=
  setIsNextFromPrev value (setIsPreviousFromNext value m)

/-- `updateState(initialUpdate)`: return early when no group is attached;
otherwise read the group open-set, test membership of this value, and
either expand and clear both sibling flags, or collapse and recompute the
sibling flags. -/
def updateState (initialUpdate : Bool) (env : Env) (m : Machine) : Machine :=
  match m.accordionGroupEl with
  | none => m
  | some accordionGroup =>
      if shouldExpandFor accordionGroup.value m.value then
        { expandAccordion initialUpdate env m with isNext := false, isPrevious := false }
      else
        applySiblingFlags accordionGroup.value (collapseAccordion initialUpdate env m)

/-- `connectedCallback`: look up the closest `ion-accordion-group`
ancestor (supplied by the environment as `closestGroup`, reachable only
when the host element exists); when found, run the initial update and
subscribe to `ionValueChange`. -/
def connectedCallback (env : Env) (closestGroup : Option Group) (m : Machine) : Machine :=
  match (if m.hasEl then closestGroup else none) with
  | some g =>
      { updateState true env { m with accordionGroupEl := some g } with subscribed := true }
  | none => { m with accordionGroupEl := none }

/-- `toggleExpanded`: ignore the click when disabled or readonly;
otherwise, when a group is attached, emit a toggle request
`(value, expand)` with `expand` true exactly when the current state is
`Collapsed` or `Collapsing`. The instance itself is returned unchanged:
it never self-toggles. -/
def toggleExpanded (m : Machine) : Machine × Option (String × Bool) :=
  if m.disabled || m.readonly then (m, none)
  else
    match m.accordionGroupEl with
    | some _ => (m, some (m.value, m.state == .Collapsed || m.state == .Collapsing))
    | none => (m, none)

/-- External events: a group change notification carrying the new
open-set, the firing of a scheduled frame callback, and the resolution of
a pending transition wait (by signal or by timeout). -/
inductive Ev
  | notify : GroupValue → Ev
  | frame : Nat → Ev
  | transition : Nat → Ev
deriving DecidableEq, Repr

/-- The group open-set changes: the stored group value is replaced. -/
def setGroupValue (gv : GroupValue) (m : Machine) : Machine :=
  match m.accordionGroupEl with
  | some g => { m with accordionGroupEl := some { g with value := gv } }
  | none => m

/-- One event step. A notification updates the group value and, when the
instance is subscribed, runs the update listener `updateState(false)`.
A frame event fires the pending callback with that handle, if any, after
removing it from the pending set; likewise a transition event resolves
the pending wait with that handle. Events naming no pending handle are
no-ops. -/
def step (env : Env) (m : Machine) : Ev → Machine
  | .notify gv =>
      if m.subscribed then updateState false env (setGroupValue gv m)
      else setGroupValue gv m
  | .frame id =>
      match m.pendingFrames.find? (fun p => p.1 == id) with
      | some p =>
          runFrame p.2 { m with pendingFrames := m.pendingFrames.filter (fun q => !(q.1 == id)) }
      | none => m
  | .transition id =>
      match m.pendingTransitions.find? (fun p => p.1 == id) with
      | some p =>
          runTransition p.2.2
            { m with pendingTransitions := m.pendingTransitions.filter (fun q => !(q.1 == id)) }
      | none => m

/-- Run a list of events in order. -/
def run (env : Env) (m : Machine) : List Ev → Machine
  | [] => m
  | e :: es => run env (step env m e) es

/-- No pending frame callbacks and no pending transition waits. -/
def quiescent (m : Machine) : Bool :=
  m.pendingFrames.isEmpty && m.pendingTransitions.isEmpty

/-- Fire the oldest pending frame; when none is pending, resolve the
oldest pending transition wait; when the machine is quiescent, do
nothing. This is the canonical browser schedule. -/
def drainStep (env : Env) (m : Machine) : Machine :=
  match m.pendingFrames with
  | p :: _ => step env m (.frame p.1)
  | [] =>
      match m.pendingTransitions with
      | p :: _ => step env m (.transition p.1)
      | [] => m

/-- Apply `drainStep` up to `n` times, stopping at quiescence. -/
def drain (env : Env) : Nat → Machine → Machine
  | 0, m => m
  | n + 1, m => if quiescent m then m else drain env n (drainStep env m)

/-- A notification whose resulting animation sequence is allowed to run
to completion before anything else happens: the notify event followed by
the canonical schedule. Three drain steps always suffice: a command
schedules at most an outer frame, an inner frame and one transition wait. -/
def notifyStep (env : Env) (gv : GroupValue) (m : Machine) : Machine :=
  drain env 3 (step env m (.notify gv))

/-- Process a sequence of spaced group change notifications. -/
def processNotifications (env : Env) (m : Machine) : List GroupValue → Machine
  | [] => m
  | gv :: rest => processNotifications env (notifyStep env gv m) rest

/-- A freshly constructed instance: default `Collapsed` state, both
sibling flags false, no group, no subscription, nothing scheduled. -/
def initMachine (value : String) (disabled ro hasEl : Bool)
    (contentEl : Option ContentEl) (wrapperHeight : Option Nat)
    (nextSiblingValue prevSiblingValue : Option String) : Machine :=
  { state := .Collapsed
    isNext := false
    isPrevious := false
    value := value
    disabled := disabled
    readonly := ro
    hasEl := hasEl
    accordionGroupEl := none
    subscribed := false
    contentEl := contentEl
    contentElWrapperHeight := wrapperHeight
    nextSiblingValue := nextSiblingValue
    prevSiblingValue := prevSiblingValue
    currentRaf := none
    pendingFrames := []
    pendingTransitions := []
    nextId := 0 }

/-- A quiescent machine ready to receive a spaced notification: nothing
scheduled, a terminal state, subscribed, with a group attached. This is
the situation of an instance after `connectedCallback` whose previous
animation sequences have all completed. -/
def ReadyMachine (m : Machine) : Prop :=
  m.pendingFrames = [] ∧ m.pendingTransitions = [] ∧
  (m.state = AccordionState.Expanded ∨ m.state = AccordionState.Collapsed) ∧
  m.subscribed = true ∧ ∃ g, m.accordionGroupEl = some g

/-- An environment in which every animation-enabling condition holds. -/
def envAnimated : Env :=
  { hasWindow := true, prefersReducedMotion := false, configAnimated := true }

/-- An environment with the reduced-motion preference set. -/
def envReduced : Env :=
  { hasWindow := true, prefersReducedMotion := true, configAnimated := true }

/-- A concrete content element of height 20 with no inline max-height. -/
def sampleContent : ContentEl := { offsetHeight := 20, maxHeight := none }

/-- A connected, subscribed instance of value `a` in its default
`Collapsed` state, inside an animated group whose open-set is empty. -/
def sampleMachine : Machine :=
  { initMachine "a" false false true (some sampleContent) (some 20) none none with
    accordionGroupEl := some { value := GroupValue.single none, animated := true }
    subscribed := true }

/-- `sampleMachine` in the `Expanded` state. -/
def sampleExpanded : Machine := { sampleMachine with state := .Expanded }

/-- `sampleMachine` in the transient `Collapsing` state. -/
def sampleCollapsing : Machine := { sampleMachine with state := .Collapsing }

/-- `sampleMachine` in the middle of an animated expand: the outer frame
has fired, the inner expand frame (handle 1) is pending and recorded. -/
def sampleMidExpand : Machine :=
  { sampleMachine with
    state := .Expanding, currentRaf := some 1
    pendingFrames := [(1, .expandInner)], nextId := 2 }

/-- `sampleMachine` before the first render populated the content
element references, in a transient state. -/
def sampleNoContent : Machine :=
  { sampleMachine with contentEl := none, contentElWrapperHeight := none, state := .Collapsing }

/-- A disabled `sampleMachine`. -/
def sampleDisabled : Machine := { sampleMachine with disabled := true }

/-- A connected instance of value `b` whose previous structural sibling
is open panel `a` and whose next structural sibling is panel `c`, inside
a group whose open-set is the array containing only `a`. -/
def sampleSibling : Machine :=
  { initMachine "b" false false true (some sampleContent) (some 20) (some "c") (some "a") with
    accordionGroupEl := some { value := GroupValue.multi ["a"], animated := true }
    subscribed := true }

/-- `sampleMachine` with its own value `a` a member of the group open-set. -/
def sampleMember : Machine :=
  { sampleMachine with
    accordionGroupEl := some { value := GroupValue.multi ["a"], animated := true } }



/-! ## Helper lemmas shared by the claim theorems. -/

theorem cancelCurrent_accordionGroupEl (m : Machine) :
    (cancelCurrent m).accordionGroupEl = m.accordionGroupEl := by
  unfold cancelCurrent cancelAnimationFrame
  cases m.currentRaf <;> rfl

theorem cancelCurrent_state (m : Machine) : (cancelCurrent m).state = m.state := by
  unfold cancelCurrent cancelAnimationFrame
  cases m.currentRaf <;> rfl

theorem cancelCurrent_pendingTransitions (m : Machine) :
    (cancelCurrent m).pendingTransitions = m.pendingTransitions := by
  unfold cancelCurrent cancelAnimationFrame
  cases m.currentRaf <;> rfl

theorem cancelCurrent_mem_pendingFrames (m : Machine) (p : Nat × FrameTask)
    (h : p ∈ (cancelCurrent m).pendingFrames) : p ∈ m.pendingFrames := by
  unfold cancelCurrent cancelAnimationFrame at h
  cases hc : m.currentRaf with
  | none => rw [hc] at h; exact h
  | some i => rw [hc] at h; exact List.mem_of_mem_filter h

theorem cancelCurrent_of_empty (m : Machine) (h : m.pendingFrames = []) :
    cancelCurrent m = m := by
  unfold cancelCurrent cancelAnimationFrame
  cases hc : m.currentRaf with
  | none => rfl
  | some i =>
      rw [h]
      simp only [List.filter_nil]
      rw [← hc, ← h]

theorem expandAccordion_initial (env : Env) (m : Machine) :
    expandAccordion true env m = { m with state := .Expanded } := by
  unfold expandAccordion
  rfl

theorem collapseAccordion_initial (env : Env) (m : Machine) :
    collapseAccordion true env m = { m with state := .Collapsed } := by
  unfold collapseAccordion
  rfl

theorem expandAccordion_noop (env : Env) (m : Machine) (h : m.state = .Expanded) :
    expandAccordion false env m = m := by
  unfold expandAccordion
  split
  · rw [← h]
  · simp [h]

theorem collapseAccordion_noop (env : Env) (m : Machine) (h : m.state = .Collapsed) :
    collapseAccordion false env m = m := by
  unfold collapseAccordion
  split
  · rw [← h]
  · simp [h]

theorem setIsPreviousFromNext_fields (v : GroupValue) (m : Machine) :
    (setIsPreviousFromNext v m).state = m.state ∧
    (setIsPreviousFromNext v m).pendingFrames = m.pendingFrames ∧
    (setIsPreviousFromNext v m).pendingTransitions = m.pendingTransitions ∧
    (setIsPreviousFromNext v m).value = m.value ∧
    (setIsPreviousFromNext v m).subscribed = m.subscribed ∧
    (setIsPreviousFromNext v m).accordionGroupEl = m.accordionGroupEl ∧
    (setIsPreviousFromNext v m).contentEl = m.contentEl ∧
    (setIsPreviousFromNext v m).currentRaf = m.currentRaf ∧
    (setIsPreviousFromNext v m).nextId = m.nextId ∧
    (setIsPreviousFromNext v m).hasEl = m.hasEl ∧
    (setIsPreviousFromNext v m).prevSiblingValue = m.prevSiblingValue ∧
    (setIsPreviousFromNext v m).isNext = m.isNext := by
  unfold setIsPreviousFromNext
  cases hn : getNextSibling m <;> simp

theorem setIsNextFromPrev_fields (v : GroupValue) (m : Machine) :
    (setIsNextFromPrev v m).state = m.state ∧
    (setIsNextFromPrev v m).pendingFrames = m.pendingFrames ∧
    (setIsNextFromPrev v m).pendingTransitions = m.pendingTransitions ∧
    (setIsNextFromPrev v m).value = m.value ∧
    (setIsNextFromPrev v m).subscribed = m.subscribed ∧
    (setIsNextFromPrev v m).accordionGroupEl = m.accordionGroupEl ∧
    (setIsNextFromPrev v m).contentEl = m.contentEl ∧
    (setIsNextFromPrev v m).currentRaf = m.currentRaf ∧
    (setIsNextFromPrev v m).nextId = m.nextId ∧
    (setIsNextFromPrev v m).isPrevious = m.isPrevious := by
  unfold setIsNextFromPrev
  cases hp : getPreviousSibling m <;> simp

theorem applySiblingFlags_fields (v : GroupValue) (m : Machine) :
    (applySiblingFlags v m).state = m.state ∧
    (applySiblingFlags v m).pendingFrames = m.pendingFrames ∧
    (applySiblingFlags v m).pendingTransitions = m.pendingTransitions ∧
    (applySiblingFlags v m).value = m.value ∧
    (applySiblingFlags v m).subscribed = m.subscribed ∧
    (applySiblingFlags v m).accordionGroupEl = m.accordionGroupEl ∧
    (applySiblingFlags v m).contentEl = m.contentEl ∧
    (applySiblingFlags v m).currentRaf = m.currentRaf ∧
    (applySiblingFlags v m).nextId = m.nextId := by
  unfold applySiblingFlags
  obtain ⟨h1, h2, h3, h4, h5, h6, h7, h8, h9, _, _, _⟩ := setIsPreviousFromNext_fields v m
  obtain ⟨g1, g2, g3, g4, g5, g6, g7, g8, g9, _⟩ :=
    setIsNextFromPrev_fields v (setIsPreviousFromNext v m)
  exact ⟨g1.trans h1, g2.trans h2, g3.trans h3, g4.trans h4, g5.trans h5,
    g6.trans h6, g7.trans h7, g8.trans h8, g9.trans h9⟩

theorem setGroupValue_fields (gv : GroupValue) (m : Machine) (g : Group)
    (hg : m.accordionGroupEl = some g) :
    setGroupValue gv m
      = { m with accordionGroupEl := some { g with value := gv } } := by
  unfold setGroupValue
  rw [hg]

theorem expandAccordion_animated (env : Env) (m : Machine)
    (hce : m.contentEl.isNone = false) (hw : m.contentElWrapperHeight.isNone = false)
    (hstate : m.state ≠ .Expanded) (hf : m.pendingFrames = [])
    (hanim : shouldAnimate env m.accordionGroupEl = true) :
    expandAccordion false env m
      = { m with pendingFrames := [(m.nextId, .expandOuter)], nextId := m.nextId + 1 } := by
  have hb : (m.state == AccordionState.Expanded) = false := by
    simp [hstate]
  unfold expandAccordion
  rw [cancelCurrent_of_empty m hf]
  simp [hce, hw, hb, hanim, raf, hf]

theorem collapseAccordion_animated (env : Env) (m : Machine)
    (hce : m.contentEl.isNone = false)
    (hstate : m.state ≠ .Collapsed) (hf : m.pendingFrames = [])
    (hanim : shouldAnimate env m.accordionGroupEl = true) :
    collapseAccordion false env m
      = { m with pendingFrames := [(m.nextId, .collapseOuter)],
                 currentRaf := some m.nextId, nextId := m.nextId + 1 } := by
  have hb : (m.state == AccordionState.Collapsed) = false := by
    simp [hstate]
  unfold collapseAccordion
  rw [cancelCurrent_of_empty m hf]
  simp [hce, hb, hanim, raf, hf]

theorem expandAccordion_no_anim (env : Env) (m : Machine)
    (hf : m.pendingFrames = [])
    (hanim : shouldAnimate env m.accordionGroupEl = false) :
    expandAccordion false env m = { m with state := .Expanded } := by
  unfold expandAccordion
  rw [cancelCurrent_of_empty m hf]
  split
  · rfl
  · split
    · next hb =>
        have hs : m.state = .Expanded := by simpa using hb
        rw [← hs]
    · rw [hanim]
      simp

theorem collapseAccordion_no_anim (env : Env) (m : Machine)
    (hf : m.pendingFrames = [])
    (hanim : shouldAnimate env m.accordionGroupEl = false) :
    collapseAccordion false env m = { m with state := .Collapsed } := by
  unfold collapseAccordion
  rw [cancelCurrent_of_empty m hf]
  split
  · rfl
  · split
    · next hb =>
        have hs : m.state = .Collapsed := by simpa using hb
        rw [← hs]
    · rw [hanim]
      simp

theorem step_inert (env : Env) (m : Machine) (e : Ev)
    (hg : m.accordionGroupEl = none) (hs : m.subscribed = false)
    (hf : m.pendingFrames = []) (ht : m.pendingTransitions = []) :
    step env m e = m := by
  cases e with
  | notify gv =>
      unfold step setGroupValue
      rw [hs, hg]
      simp
  | frame id =>
      unfold step
      rw [hf]
      simp [List.find?]
  | transition id =>
      unfold step
      rw [ht]
      simp [List.find?]

theorem run_inert (env : Env) (m : Machine) (evs : List Ev)
    (hg : m.accordionGroupEl = none) (hs : m.subscribed = false)
    (hf : m.pendingFrames = []) (ht : m.pendingTransitions = []) :
    run env m evs = m := by
  induction evs with
  | nil => rfl
  | cons e es ih =>
      unfold run
      rw [step_inert env m e hg hs hf ht]
      exact ih

theorem drain_of_quiescent (env : Env) (n : Nat) (m : Machine)
    (h : quiescent m = true) : drain env n m = m := by
  cases n with
  | zero => rfl
  | succ k =>
      unfold drain
      rw [h]
      simp

theorem drain_succ (env : Env) (k : Nat) (m : Machine) (h : quiescent m = false) :
    drain env (k + 1) m = drain env k (drainStep env m) := by
  conv_lhs => unfold drain
  rw [h]
  simp

theorem step_frame_singleton (env : Env) (m : Machine) (i : Nat) (t : FrameTask)
    (hf : m.pendingFrames = [(i, t)]) :
    step env m (.frame i) = runFrame t { m with pendingFrames := [] } := by
  unfold step
  rw [hf]
  simp [List.find?]

theorem step_transition_singleton (env : Env) (m : Machine) (i tmo : Nat) (t : TransTask)
    (ht : m.pendingTransitions = [(i, tmo, t)]) :
    step env m (.transition i) = runTransition t { m with pendingTransitions := [] } := by
  unfold step
  rw [ht]
  simp [List.find?]

theorem drainStep_frame (env : Env) (m : Machine) (p : Nat × FrameTask)
    (rest : List (Nat × FrameTask)) (hf : m.pendingFrames = p :: rest) :
    drainStep env m = step env m (.frame p.1) := by
  unfold drainStep
  rw [hf]

theorem drainStep_transition (env : Env) (m : Machine) (p : Nat × Nat × TransTask)
    (rest : List (Nat × Nat × TransTask))
    (hf : m.pendingFrames = []) (ht : m.pendingTransitions = p :: rest) :
    drainStep env m = step env m (.transition p.1) := by
  unfold drainStep
  rw [hf, ht]

theorem runFrame_expandOuter_eq (m : Machine) :
    runFrame .expandOuter m
      = { m with state := .Expanding, currentRaf := some m.nextId,
                 pendingFrames := m.pendingFrames ++ [(m.nextId, .expandInner)],
                 nextId := m.nextId + 1 } := rfl

theorem runFrame_expandInner_eq (m : Machine) (ce : ContentEl) (w : Nat)
    (hce : m.contentEl = some ce) (hw : m.contentElWrapperHeight = some w) :
    runFrame .expandInner m
      = { m with contentEl := some { ce with maxHeight := some w },
                 pendingTransitions := m.pendingTransitions ++ [(m.nextId, 2000, .expandDone)],
                 nextId := m.nextId + 1 } := by
  unfold runFrame transitionEndAsync
  rw [hce, hw]

theorem runFrame_collapseOuter_eq (m : Machine) (ce : ContentEl)
    (hce : m.contentEl = some ce) :
    runFrame .collapseOuter m
      = { m with contentEl := some { ce with maxHeight := some ce.offsetHeight },
                 pendingFrames := m.pendingFrames ++ [(m.nextId, .collapseInner)],
                 nextId := m.nextId + 1 } := by
  unfold runFrame raf
  rw [hce]

theorem runFrame_collapseInner_eq (m : Machine) :
    runFrame .collapseInner m
      = { m with state := .Collapsing,
                 pendingTransitions := m.pendingTransitions ++ [(m.nextId, 2000, .collapseDone)],
                 nextId := m.nextId + 1 } := rfl

theorem runTransition_expandDone_eq (m : Machine) (ce : ContentEl)
    (hce : m.contentEl = some ce) :
    runTransition .expandDone m
      = { m with state := .Expanded, contentEl := some { ce with maxHeight := none } } := by
  unfold runTransition clearMaxHeight
  simp [hce]

theorem runTransition_collapseDone_eq (m : Machine) (ce : ContentEl)
    (hce : m.contentEl = some ce) :
    runTransition .collapseDone m
      = { m with state := .Collapsed, contentEl := some { ce with maxHeight := none } } := by
  unfold runTransition clearMaxHeight
  simp [hce]

theorem drain_expand_run (env : Env) (M : Machine) (i : Nat) (ce : ContentEl) (w : Nat)
    (hf : M.pendingFrames = [(i, .expandOuter)]) (ht : M.pendingTransitions = [])
    (hce : M.contentEl = some ce) (hw : M.contentElWrapperHeight = some w) :
    drain env 3 M
      = { M with state := .Expanded, currentRaf := some M.nextId,
                 pendingFrames := [], pendingTransitions := [],
                 contentEl := some { ce with maxHeight := none },
                 nextId := M.nextId + 1 + 1 } := by
  have hq1 : quiescent M = false := by simp [quiescent, hf]
  have e1 : drainStep env M
      = { M with state := .Expanding, currentRaf := some M.nextId,
                 pendingFrames := [(M.nextId, .expandInner)], nextId := M.nextId + 1 } := by
    rw [drainStep_frame env M (i, .expandOuter) [] hf,
        step_frame_singleton env M i .expandOuter hf, runFrame_expandOuter_eq]
    simp
  have e2 : drainStep env
      { M with
        state := AccordionState.Expanding, currentRaf := some M.nextId,
        pendingFrames := [(M.nextId, FrameTask.expandInner)], nextId := M.nextId + 1 }
      = { M with state := .Expanding, currentRaf := some M.nextId,
                 pendingFrames := [],
                 pendingTransitions := [(M.nextId + 1, 2000, .expandDone)],
                 contentEl := some { ce with maxHeight := some w },
                 nextId := M.nextId + 1 + 1 } := by
    rw [drainStep_frame env _ (M.nextId, .expandInner) [] rfl,
        step_frame_singleton env _ M.nextId .expandInner rfl,
        runFrame_expandInner_eq _ ce w (by simp [hce]) (by simp [hw])]
    simp [ht]
  have e3 : drainStep env
      { M with
        state := AccordionState.Expanding, currentRaf := some M.nextId,
        pendingFrames := ([] : List (Nat × FrameTask)),
        pendingTransitions := [(M.nextId + 1, 2000, TransTask.expandDone)],
        contentEl := some { ce with maxHeight := some w }, nextId := M.nextId + 1 + 1 }
      = { M with state := .Expanded, currentRaf := some M.nextId,
                 pendingFrames := [], pendingTransitions := [],
                 contentEl := some { ce with maxHeight := none },
                 nextId := M.nextId + 1 + 1 } := by
    rw [drainStep_transition env _ (M.nextId + 1, 2000, .expandDone) [] rfl rfl,
        step_transition_singleton env _ (M.nextId + 1) 2000 .expandDone rfl,
        runTransition_expandDone_eq _ { ce with maxHeight := some w } (by simp)]
  rw [show (3 : Nat) = 2 + 1 from rfl, drain_succ env 2 M hq1, e1]
  rw [show (2 : Nat) = 1 + 1 from rfl, drain_succ env 1 _ (by simp [quiescent]), e2]
  rw [show (1 : Nat) = 0 + 1 from rfl, drain_succ env 0 _ (by simp [quiescent]), e3]
  rfl

theorem drain_collapse_run (env : Env) (M : Machine) (i : Nat) (ce : ContentEl)
    (hf : M.pendingFrames = [(i, .collapseOuter)]) (ht : M.pendingTransitions = [])
    (hce : M.contentEl = some ce) :
    drain env 3 M
      = { M with state := .Collapsed,
                 pendingFrames := [], pendingTransitions := [],
                 contentEl := some { ce with maxHeight := none },
                 nextId := M.nextId + 1 + 1 } := by
  have hq1 : quiescent M = false := by simp [quiescent, hf]
  have e1 : drainStep env M
      = { M with contentEl := some { ce with maxHeight := some ce.offsetHeight },
                 pendingFrames := [(M.nextId, .collapseInner)], nextId := M.nextId + 1 } := by
    rw [drainStep_frame env M (i, .collapseOuter) [] hf,
        step_frame_singleton env M i .collapseOuter hf,
        runFrame_collapseOuter_eq _ ce (by simp [hce])]
    simp
  have e2 : drainStep env
      { M with
        contentEl := some { ce with maxHeight := some ce.offsetHeight },
        pendingFrames := [(M.nextId, FrameTask.collapseInner)], nextId := M.nextId + 1 }
      = { M with state := .Collapsing,
                 contentEl := some { ce with maxHeight := some ce.offsetHeight },
                 pendingFrames := [],
                 pendingTransitions := [(M.nextId + 1, 2000, .collapseDone)],
                 nextId := M.nextId + 1 + 1 } := by
    rw [drainStep_frame env _ (M.nextId, .collapseInner) [] rfl,
        step_frame_singleton env _ M.nextId .collapseInner rfl,
        runFrame_collapseInner_eq]
    simp [ht]
  have e3 : drainStep env
      { M with
        state := AccordionState.Collapsing,
        contentEl := some { ce with maxHeight := some ce.offsetHeight },
        pendingFrames := ([] : List (Nat × FrameTask)),
        pendingTransitions := [(M.nextId + 1, 2000, TransTask.collapseDone)],
        nextId := M.nextId + 1 + 1 }
      = { M with state := .Collapsed,
                 pendingFrames := [], pendingTransitions := [],
                 contentEl := some { ce with maxHeight := none },
                 nextId := M.nextId + 1 + 1 } := by
    rw [drainStep_transition env _ (M.nextId + 1, 2000, .collapseDone) [] rfl rfl,
        step_transition_singleton env _ (M.nextId + 1) 2000 .collapseDone rfl,
        runTransition_collapseDone_eq _ { ce with maxHeight := some ce.offsetHeight } (by simp)]
  rw [show (3 : Nat) = 2 + 1 from rfl, drain_succ env 2 M hq1, e1]
  rw [show (2 : Nat) = 1 + 1 from rfl, drain_succ env 1 _ (by simp [quiescent]), e2]
  rw [show (1 : Nat) = 0 + 1 from rfl, drain_succ env 0 _ (by simp [quiescent]), e3]
  rfl



theorem applySiblingFlags_state (v : GroupValue) (m : Machine) :
    (applySiblingFlags v m).state = m.state :=
  (applySiblingFlags_fields v m).1

theorem updateState_initial_state (env : Env) (m : Machine) :
    (updateState true env m).state = .Expanded ∨
    (updateState true env m).state = .Collapsed ∨
    (updateState true env m).state = m.state := by
  unfold updateState
  cases hg : m.accordionGroupEl with
  | none => right; right; rfl
  | some g =>
      cases hmem : shouldExpandFor g.value m.value
      · right; left
        simp [hmem, applySiblingFlags_state, collapseAccordion_initial]
      · left
        simp [hmem, expandAccordion_initial]



/-! ## Claim theorems. -/

/-- Claim C5: the first state assignment after attach (the call with
initial-update semantics) plays no animation and sets the state
immediately and only to a terminal value. `expandAccordion(true)` and
`collapseAccordion(true)` change only the state field, to `Expanded`
resp. `Collapsed` — in particular they schedule nothing — and the state
right after `connectedCallback` on a fresh instance is always terminal,
never `Collapsing` or `Expanding`. -/
theorem c5_initial_update_terminal (env : Env) (m : Machine) (g : Option Group)
    (v : String) (d rdo he : Bool) (ce : Option ContentEl) (w : Option Nat)
    (ns ps : Option String) :
    expandAccordion true env m = { m with state := .Expanded } ∧
    collapseAccordion true env m = { m with state := .Collapsed } ∧
    ((connectedCallback env g (initMachine v d rdo he ce w ns ps)).state = .Collapsed ∨
      (connectedCallback env g (initMachine v d rdo he ce w ns ps)).state = .Expanded) := by
  refine ⟨expandAccordion_initial env m, collapseAccordion_initial env m, ?_⟩
  unfold connectedCallback
  cases hb : (if (initMachine v d rdo he ce w ns ps).hasEl then g else none) with
  | none => left; rfl
  | some g2 =>
      have h3 := updateState_initial_state env
        { initMachine v d rdo he ce w ns ps with accordionGroupEl := some g2 }
      rcases h3 with h | h | h
      · right; simpa using h
      · left; simpa using h
      · left
        simp only [] at h ⊢
        simpa using h

/-- Claim C6: a non-initial expand command while already `Expanded` is a
no-op — the machine, its pending frame set included, is returned
unchanged — and symmetrically for a non-initial collapse command while
already `Collapsed`. -/
theorem c6_resolved_command_noop (env : Env) (m mc : Machine)
    (h1 : m.state = .Expanded) (h2 : mc.state = .Collapsed) :
    expandAccordion false env m = m ∧ collapseAccordion false env mc = mc :=
  ⟨expandAccordion_noop env m h1, collapseAccordion_noop env mc h2⟩

/-- Witness for C6 at concrete machines. -/
theorem c6_witness :
    expandAccordion false envAnimated sampleExpanded = sampleExpanded ∧
    collapseAccordion false envAnimated sampleMachine = sampleMachine :=
  c6_resolved_command_noop envAnimated sampleExpanded sampleMachine rfl rfl

/-- Claim C10: a command issued before the first render populated the
content element references jumps straight to the terminal state, with no
frame scheduled, even when the command is not an initial update and
animation is enabled: only the state field changes. -/
theorem c10_unpopulated_refs_jump (b : Bool) (env : Env) (m mc : Machine)
    (h1 : m.contentEl = none ∨ m.contentElWrapperHeight = none)
    (h2 : mc.contentEl = none) :
    expandAccordion b env m = { m with state := .Expanded } ∧
    collapseAccordion b env mc = { mc with state := .Collapsed } := by
  constructor
  · unfold expandAccordion
    rcases h1 with h | h <;> simp [h]
  · unfold collapseAccordion
    simp [h2]

/-- Witness for C10: a non-initial command in an animated environment on
a machine whose content references are unset, from a transient state. -/
theorem c10_witness :
    expandAccordion false envAnimated sampleNoContent
      = { sampleNoContent with state := .Expanded } ∧
    collapseAccordion false envAnimated sampleNoContent
      = { sampleNoContent with state := .Collapsed } :=
  c10_unpopulated_refs_jump false envAnimated sampleNoContent sampleNoContent
    (Or.inl rfl) rfl

/-- Claim C8: a header click is ignored when `disabled` or `readonly`
(no toggle request, no local change); otherwise, with a group attached,
it submits the toggle request `(value, expand)` where the direction is
expand exactly when the state is `Collapsed` or `Collapsing`; and the
instance never changes its own state in response to the click. -/
theorem c8_header_click (m : Machine) :
    (toggleExpanded m).1 = m ∧
    ((m.disabled = true ∨ m.readonly = true) → (toggleExpanded m).2 = none) ∧
    (m.disabled = false → m.readonly = false → ∀ g, m.accordionGroupEl = some g →
      (toggleExpanded m).2
        = some (m.value, m.state == .Collapsed || m.state == .Collapsing)) := by
  refine ⟨?_, ?_, ?_⟩
  · unfold toggleExpanded
    split
    · rfl
    · cases hg : m.accordionGroupEl <;> simp
  · intro h
    rcases h with h | h <;> simp [toggleExpanded, h]
  · intro hd hr g hg
    simp [toggleExpanded, hd, hr, hg]

/-- Witness for C8: a disabled instance submits nothing; an enabled
collapsed instance submits an expand request and stays unchanged. -/
theorem c8_witness :
    (toggleExpanded sampleDisabled).1 = sampleDisabled ∧
    (toggleExpanded sampleDisabled).2 = none ∧
    (toggleExpanded sampleMachine).2 = some ("a", true) := by
  refine ⟨(c8_header_click sampleDisabled).1,
    (c8_header_click sampleDisabled).2.1 (Or.inl rfl), ?_⟩
  have h := (c8_header_click sampleMachine).2.2 rfl rfl
    { value := GroupValue.single none, animated := true } rfl
  simpa using h



/-- Claim C4: when `shouldAnimate` evaluates to false — no window,
reduced-motion preference, config flag false, or group override false —
any expand or collapse command (initial or not, from any state) sets the
terminal state within the same synchronous call: the result state is
`Expanded` resp. `Collapsed`, no frame is newly scheduled and no
transition wait is registered. Since this holds for every machine, it
holds in particular for machines produced by earlier calls under an
animation-enabled environment: the disable condition is recomputed on
every call, never cached. -/
theorem c4_disabled_sync_terminal (b : Bool) (env : Env) (m : Machine)
    (h : shouldAnimate env m.accordionGroupEl = false) :
    (expandAccordion b env m).state = .Expanded ∧
    (collapseAccordion b env m).state = .Collapsed ∧
    (∀ p, p ∈ (expandAccordion b env m).pendingFrames → p ∈ m.pendingFrames) ∧
    (∀ p, p ∈ (collapseAccordion b env m).pendingFrames → p ∈ m.pendingFrames) ∧
    (expandAccordion b env m).pendingTransitions = m.pendingTransitions ∧
    (collapseAccordion b env m).pendingTransitions = m.pendingTransitions := by
  have hcc : shouldAnimate env (cancelCurrent m).accordionGroupEl = false := by
    rw [cancelCurrent_accordionGroupEl]
    exact h
  refine ⟨?_, ?_, ?_, ?_, ?_, ?_⟩
  · unfold expandAccordion
    split
    · rfl
    · split
      · next hb => simpa using hb
      · rw [hcc]
        simp
  · unfold collapseAccordion
    split
    · rfl
    · split
      · next hb => simpa using hb
      · rw [hcc]
        simp
  · intro p hp
    unfold expandAccordion at hp
    split at hp
    · exact hp
    · split at hp
      · exact hp
      · rw [hcc] at hp
        simp at hp
        exact cancelCurrent_mem_pendingFrames m p hp
  · intro p hp
    unfold collapseAccordion at hp
    split at hp
    · exact hp
    · split at hp
      · exact hp
      · rw [hcc] at hp
        simp at hp
        exact cancelCurrent_mem_pendingFrames m p hp
  · unfold expandAccordion
    split
    · rfl
    · split
      · rfl
      · rw [hcc]
        simp [cancelCurrent_pendingTransitions]
  · unfold collapseAccordion
    split
    · rfl
    · split
      · rfl
      · rw [hcc]
        simp [cancelCurrent_pendingTransitions]

/-- Witness for C4: under the reduced-motion environment, a non-initial
command from the transient `Collapsing` state resolves terminally at
once. -/
theorem c4_witness :
    (expandAccordion false envReduced sampleCollapsing).state = .Expanded ∧
    (collapseAccordion false envReduced sampleCollapsing).state = .Collapsed ∧
    (expandAccordion false envReduced sampleCollapsing).pendingTransitions = [] :=
  ⟨(c4_disabled_sync_terminal false envReduced sampleCollapsing rfl).1,
   (c4_disabled_sync_terminal false envReduced sampleCollapsing rfl).2.1,
   (c4_disabled_sync_terminal false envReduced sampleCollapsing rfl).2.2.2.2.1⟩

/-- Claim C9: with no enclosing group found at attach time,
`connectedCallback` neither subscribes nor updates anything, every
`updateState` call returns the machine unchanged, and no sequence of
events can move the instance from its default `Collapsed` state. -/
theorem c9_group_absent_inert (env env2 : Env) (b : Bool) (evs : List Ev)
    (v : String) (d rdo he : Bool) (ce : Option ContentEl) (w : Option Nat)
    (ns ps : Option String) :
    connectedCallback env none (initMachine v d rdo he ce w ns ps)
      = initMachine v d rdo he ce w ns ps ∧
    updateState b env2 (initMachine v d rdo he ce w ns ps)
      = initMachine v d rdo he ce w ns ps ∧
    run env (connectedCallback env none (initMachine v d rdo he ce w ns ps)) evs
      = initMachine v d rdo he ce w ns ps ∧
    (initMachine v d rdo he ce w ns ps).state = .Collapsed ∧
    (initMachine v d rdo he ce w ns ps).subscribed = false := by
  have hc : connectedCallback env none (initMachine v d rdo he ce w ns ps)
      = initMachine v d rdo he ce w ns ps := by
    unfold connectedCallback
    rw [ite_self]
    rfl
  refine ⟨hc, ?_, ?_, rfl, rfl⟩
  · unfold updateState
    rfl
  · rw [hc]
    exact run_inert env _ evs rfl rfl rfl rfl


/-- Claim C2 counterexample: from the connected `Collapsed` machine in an
animated environment, an expand command followed synchronously by a
collapse command does not behave as the claim states. The expand call
leaves `currentRaf` unset (the handle of its outermost scheduled frame,
handle 0, is discarded) and the collapse call returns through the
early state guard, changing nothing: the outer expand frame stays
pending and is never cancelled. Letting the scheduled work run, the
supposedly stale expand sequence executes its body in full and the
machine ends `Expanded`. -/
theorem c2_counterexample :
    (expandAccordion false envAnimated sampleMachine).currentRaf = none ∧
    (expandAccordion false envAnimated sampleMachine).pendingFrames
      = [(0, .expandOuter)] ∧
    collapseAccordion false envAnimated (expandAccordion false envAnimated sampleMachine)
      = expandAccordion false envAnimated sampleMachine ∧
    (run envAnimated
        (collapseAccordion false envAnimated (expandAccordion false envAnimated sampleMachine))
        [.frame 0, .frame 1, .transition 2]).state = .Expanded := by
  refine ⟨rfl, rfl, by decide, by decide⟩

/-- Claim C2 (amended): `collapseAccordion` records the handle of its
outermost scheduled frame, but `expandAccordion` records only the handle
of its nested inner frame, at the moment the outer frame runs. A new
command cancels whatever not-yet-executed frame is recorded in
`currentRaf`: in particular, a collapse command arriving after the
expand command has passed its first frame (state `Expanding`, recorded
inner frame pending) cancels that inner frame, so the stale expand body
never executes, and leaves exactly the one collapse sequence scheduled,
with its outermost handle recorded. A collapse arriving before the first
expand frame has run is instead dropped by the state guard and cancels
nothing (see the counterexample). -/
theorem c2_cancel_pending_inner (env : Env) (m : Machine) (i : Nat) (ce : ContentEl)
    (hstate : m.state = .Expanding)
    (hraf : m.currentRaf = some i)
    (hpend : m.pendingFrames = [(i, .expandInner)])
    (hce : m.contentEl = some ce)
    (hanim : shouldAnimate env m.accordionGroupEl = true) :
    (collapseAccordion false env m).pendingFrames = [(m.nextId, .collapseOuter)] ∧
    (collapseAccordion false env m).currentRaf = some m.nextId := by
  have hb : (m.state == AccordionState.Collapsed) = false := by
    simp [hstate]
  have hcc : cancelCurrent m = { m with pendingFrames := [] } := by
    unfold cancelCurrent cancelAnimationFrame
    rw [hraf, hpend]
    simp
  unfold collapseAccordion
  rw [hcc]
  simp [hce, hb, hanim, raf]

/-- Witness for the amended C2 at the concrete mid-expand machine. -/
theorem c2_witness :
    (collapseAccordion false envAnimated sampleMidExpand).pendingFrames
      = [(2, .collapseOuter)] ∧
    (collapseAccordion false envAnimated sampleMidExpand).currentRaf = some 2 :=
  c2_cancel_pending_inner envAnimated sampleMidExpand 1 sampleContent
    rfl rfl rfl rfl rfl

/-- Claim C1 counterexample: two group change notifications delivered in
the same tick, first opening value `a`, then closing it, followed by
the scheduled frames and the transition resolution. The machine ends
quiescent (fully resolved) in state `Expanded`, while `a` is not a
member of the most recent open-set (the empty array): the collapse
notification was dropped by the state guard while the expand frames were
still pending, so the resolved state does not track the latest
open-set. -/
theorem c1_counterexample :
    shouldExpandFor (.multi []) "a" = false ∧
    (run envAnimated sampleMachine
        [.notify (.multi ["a"]), .notify (.multi []),
         .frame 0, .frame 1, .transition 2]).accordionGroupEl
      = some { value := .multi [], animated := true } ∧
    quiescent (run envAnimated sampleMachine
        [.notify (.multi ["a"]), .notify (.multi []),
         .frame 0, .frame 1, .transition 2]) = true ∧
    (run envAnimated sampleMachine
        [.notify (.multi ["a"]), .notify (.multi []),
         .frame 0, .frame 1, .transition 2]).state = .Expanded := by
  refine ⟨rfl, by decide, by decide, by decide⟩

theorem collapseAccordion_sibling_fields (b : Bool) (env : Env) (m : Machine) :
    (collapseAccordion b env m).hasEl = m.hasEl ∧
    (collapseAccordion b env m).nextSiblingValue = m.nextSiblingValue ∧
    (collapseAccordion b env m).prevSiblingValue = m.prevSiblingValue := by
  unfold collapseAccordion
  split
  · exact ⟨rfl, rfl, rfl⟩
  · split
    · exact ⟨rfl, rfl, rfl⟩
    · split
      · unfold raf cancelCurrent cancelAnimationFrame
        cases m.currentRaf <;> exact ⟨rfl, rfl, rfl⟩
      · unfold cancelCurrent cancelAnimationFrame
        cases m.currentRaf <;> exact ⟨rfl, rfl, rfl⟩

theorem applySiblingFlags_flags (v : GroupValue) (m : Machine) (nv pv : String)
    (hhas : m.hasEl = true) (hnv : m.nextSiblingValue = some nv)
    (hpv : m.prevSiblingValue = some pv) :
    (applySiblingFlags v m).isNext = shouldExpandFor v pv ∧
    (applySiblingFlags v m).isPrevious = shouldExpandFor v nv := by
  unfold applySiblingFlags setIsNextFromPrev setIsPreviousFromNext
  unfold getNextSibling getPreviousSibling
  simp [hhas, hnv, hpv]

/-- Claim C3: an animated collapse of an `Expanded` panel passes through
exactly `Expanded`, then `Collapsing`, then `Collapsed`. The command
leaves the state `Expanded` and schedules the outer frame, recording its
handle. The outer frame sets max-height to the measured current height
while the state is still `Expanded` (the frame preceding the nested one
that sets `Collapsing`); the nested frame registers the transition wait
with timeout bound 2000 and sets `Collapsing`, max-height still set; the
resolution of the wait sets `Collapsed` and removes max-height, leaving
the machine quiescent. The wait resolves no later than its 2000 bound
whether or not the transition-end signal ever arrives. -/
theorem c3_collapse_sequence (env : Env) (m : Machine) (ce : ContentEl)
    (hstate : m.state = .Expanded)
    (hce : m.contentEl = some ce)
    (hf : m.pendingFrames = []) (ht : m.pendingTransitions = [])
    (hanim : shouldAnimate env m.accordionGroupEl = true) :
    (collapseAccordion false env m).state = .Expanded ∧
    (collapseAccordion false env m).pendingFrames = [(m.nextId, .collapseOuter)] ∧
    (collapseAccordion false env m).currentRaf = some m.nextId ∧
    (run env (collapseAccordion false env m) [.frame m.nextId]).state = .Expanded ∧
    (run env (collapseAccordion false env m) [.frame m.nextId]).contentEl
      = some { ce with maxHeight := some ce.offsetHeight } ∧
    (run env (collapseAccordion false env m) [.frame m.nextId]).pendingFrames
      = [(m.nextId + 1, .collapseInner)] ∧
    (run env (collapseAccordion false env m)
        [.frame m.nextId, .frame (m.nextId + 1)]).state = .Collapsing ∧
    (run env (collapseAccordion false env m)
        [.frame m.nextId, .frame (m.nextId + 1)]).contentEl
      = some { ce with maxHeight := some ce.offsetHeight } ∧
    (run env (collapseAccordion false env m)
        [.frame m.nextId, .frame (m.nextId + 1)]).pendingTransitions
      = [(m.nextId + 1 + 1, 2000, .collapseDone)] ∧
    (run env (collapseAccordion false env m)
        [.frame m.nextId, .frame (m.nextId + 1), .transition (m.nextId + 1 + 1)]).state
      = .Collapsed ∧
    (run env (collapseAccordion false env m)
        [.frame m.nextId, .frame (m.nextId + 1), .transition (m.nextId + 1 + 1)]).contentEl
      = some { ce with maxHeight := none } ∧
    quiescent (run env (collapseAccordion false env m)
        [.frame m.nextId, .frame (m.nextId + 1), .transition (m.nextId + 1 + 1)]) = true ∧
    (∀ signal, transitionResolveTime signal 2000 ≤ 2000) := by
  have hcmd : collapseAccordion false env m
      = { m with pendingFrames := [(m.nextId, .collapseOuter)],
                 currentRaf := some m.nextId, nextId := m.nextId + 1 } := by
    refine collapseAccordion_animated env m (by simp [hce]) ?_ hf hanim
    rw [hstate]
    intro h
    exact AccordionState.noConfusion h
  have s1 : step env
      { m with pendingFrames := [(m.nextId, FrameTask.collapseOuter)],
               currentRaf := some m.nextId, nextId := m.nextId + 1 } (.frame m.nextId)
      = { m with contentEl := some { ce with maxHeight := some ce.offsetHeight },
                 currentRaf := some m.nextId,
                 pendingFrames := [(m.nextId + 1, .collapseInner)],
                 nextId := m.nextId + 1 + 1 } := by
    rw [step_frame_singleton env _ m.nextId .collapseOuter rfl,
        runFrame_collapseOuter_eq _ ce (by simp [hce])]
    simp
  have s2 : step env
      { m with contentEl := some { ce with maxHeight := some ce.offsetHeight },
               currentRaf := some m.nextId,
               pendingFrames := [(m.nextId + 1, FrameTask.collapseInner)],
               nextId := m.nextId + 1 + 1 } (.frame (m.nextId + 1))
      = { m with state := .Collapsing,
                 contentEl := some { ce with maxHeight := some ce.offsetHeight },
                 currentRaf := some m.nextId, pendingFrames := [],
                 pendingTransitions := [(m.nextId + 1 + 1, 2000, .collapseDone)],
                 nextId := m.nextId + 1 + 1 + 1 } := by
    rw [step_frame_singleton env _ (m.nextId + 1) .collapseInner rfl,
        runFrame_collapseInner_eq]
    simp [ht]
  have s3 : step env
      { m with state := AccordionState.Collapsing,
               contentEl := some { ce with maxHeight := some ce.offsetHeight },
               currentRaf := some m.nextId, pendingFrames := ([] : List (Nat × FrameTask)),
               pendingTransitions := [(m.nextId + 1 + 1, 2000, TransTask.collapseDone)],
               nextId := m.nextId + 1 + 1 + 1 } (.transition (m.nextId + 1 + 1))
      = { m with state := .Collapsed,
                 contentEl := some { ce with maxHeight := none },
                 currentRaf := some m.nextId, pendingFrames := [],
                 pendingTransitions := [],
                 nextId := m.nextId + 1 + 1 + 1 } := by
    rw [step_transition_singleton env _ (m.nextId + 1 + 1) 2000 .collapseDone rfl,
        runTransition_collapseDone_eq _ { ce with maxHeight := some ce.offsetHeight } (by simp)]
  have r1 : run env (collapseAccordion false env m) [.frame m.nextId]
      = { m with contentEl := some { ce with maxHeight := some ce.offsetHeight },
                 currentRaf := some m.nextId,
                 pendingFrames := [(m.nextId + 1, .collapseInner)],
                 nextId := m.nextId + 1 + 1 } := by
    rw [hcmd]
    simp only [run]
    rw [s1]
  have r2 : run env (collapseAccordion false env m)
        [.frame m.nextId, .frame (m.nextId + 1)]
      = { m with state := .Collapsing,
                 contentEl := some { ce with maxHeight := some ce.offsetHeight },
                 currentRaf := some m.nextId, pendingFrames := [],
                 pendingTransitions := [(m.nextId + 1 + 1, 2000, .collapseDone)],
                 nextId := m.nextId + 1 + 1 + 1 } := by
    rw [hcmd]
    simp only [run]
    rw [s1, s2]
  have r3 : run env (collapseAccordion false env m)
        [.frame m.nextId, .frame (m.nextId + 1), .transition (m.nextId + 1 + 1)]
      = { m with state := .Collapsed,
                 contentEl := some { ce with maxHeight := none },
                 currentRaf := some m.nextId, pendingFrames := [],
                 pendingTransitions := [],
                 nextId := m.nextId + 1 + 1 + 1 } := by
    rw [hcmd]
    simp only [run]
    rw [s1, s2, s3]
  refine ⟨?_, ?_, ?_, ?_, ?_, ?_, ?_, ?_, ?_, ?_, ?_, ?_, ?_⟩
  · rw [hcmd]
    exact hstate
  · rw [hcmd]
  · rw [hcmd]
  · rw [r1]
    exact hstate
  · rw [r1]
  · rw [r1]
  · rw [r2]
  · rw [r2]
  · rw [r2]
  · rw [r3]
  · rw [r3]
  · rw [r3]
    rfl
  · intro signal
    cases signal with
    | none => exact le_refl 2000
    | some t => exact min_le_right t 2000

/-- Witness for C3 at the concrete expanded machine: the full canonical
schedule ends `Collapsed` with the max-height override removed. -/
theorem c3_witness :
    (run envAnimated (collapseAccordion false envAnimated sampleExpanded)
        [.frame 0, .frame 1, .transition 2]).state = .Collapsed ∧
    (run envAnimated (collapseAccordion false envAnimated sampleExpanded)
        [.frame 0, .frame 1, .transition 2]).contentEl
      = some { sampleContent with maxHeight := none } := by
  have h := c3_collapse_sequence envAnimated sampleExpanded sampleContent rfl rfl rfl rfl rfl
  exact ⟨h.2.2.2.2.2.2.2.2.2.1, h.2.2.2.2.2.2.2.2.2.2.1⟩

/-- Claim C7: on each run of `updateState` with a group attached, if the
value is a member of the open-set both `isNext` and `isPrevious` are
reset to false; if it is not a member (the collapse path, the only path
computing these flags) and both structural siblings exist, `isNext` is
set from membership of the previous structural sibling value and
`isPrevious` from membership of the next structural sibling value — the
deliberately swapped mapping. -/
theorem c7_sibling_flags (b : Bool) (env : Env) (m : Machine) (g : Group)
    (hg : m.accordionGroupEl = some g) :
    (shouldExpandFor g.value m.value = true →
      (updateState b env m).isNext = false ∧
        (updateState b env m).isPrevious = false) ∧
    (shouldExpandFor g.value m.value = false → m.hasEl = true →
      ∀ nv pv, m.nextSiblingValue = some nv → m.prevSiblingValue = some pv →
        (updateState b env m).isNext = shouldExpandFor g.value pv ∧
          (updateState b env m).isPrevious = shouldExpandFor g.value nv) := by
  unfold updateState
  rw [hg]
  constructor
  · intro hmem
    simp [hmem]
  · intro hmem hhas nv pv hnv hpv
    obtain ⟨e1, e2, e3⟩ := collapseAccordion_sibling_fields b env m
    have h2 := applySiblingFlags_flags g.value (collapseAccordion b env m) nv pv
      (e1.trans hhas) (e2.trans hnv) (e3.trans hpv)
    simp only [hmem]
    simpa using h2

/-- Witness for C7: the member machine clears both flags; panel `b`,
whose previous structural sibling `a` is open, computes `isNext = true`
and `isPrevious = false`. -/
theorem c7_witness :
    ((updateState false envAnimated sampleMember).isNext = false ∧
      (updateState false envAnimated sampleMember).isPrevious = false) ∧
    (updateState false envAnimated sampleSibling).isNext = true ∧
    (updateState false envAnimated sampleSibling).isPrevious = false := by
  refine ⟨(c7_sibling_flags false envAnimated sampleMember
    { value := GroupValue.multi ["a"], animated := true } rfl).1 rfl, ?_, ?_⟩
  · have h := ((c7_sibling_flags false envAnimated sampleSibling
      { value := GroupValue.multi ["a"], animated := true } rfl).2 rfl rfl
      "c" "a" rfl rfl).1
    exact h.trans (by decide)
  · have h := ((c7_sibling_flags false envAnimated sampleSibling
      { value := GroupValue.multi ["a"], animated := true } rfl).2 rfl rfl
      "c" "a" rfl rfl).2
    exact h.trans (by decide)

theorem applySiblingFlags_pendingFrames (v : GroupValue) (m : Machine) :
    (applySiblingFlags v m).pendingFrames = m.pendingFrames :=
  (applySiblingFlags_fields v m).2.1

theorem applySiblingFlags_pendingTransitions (v : GroupValue) (m : Machine) :
    (applySiblingFlags v m).pendingTransitions = m.pendingTransitions :=
  (applySiblingFlags_fields v m).2.2.1

theorem applySiblingFlags_value (v : GroupValue) (m : Machine) :
    (applySiblingFlags v m).value = m.value :=
  (applySiblingFlags_fields v m).2.2.2.1

theorem applySiblingFlags_subscribed (v : GroupValue) (m : Machine) :
    (applySiblingFlags v m).subscribed = m.subscribed :=
  (applySiblingFlags_fields v m).2.2.2.2.1

theorem applySiblingFlags_accordionGroupEl (v : GroupValue) (m : Machine) :
    (applySiblingFlags v m).accordionGroupEl = m.accordionGroupEl :=
  (applySiblingFlags_fields v m).2.2.2.2.2.1

theorem applySiblingFlags_contentEl (v : GroupValue) (m : Machine) :
    (applySiblingFlags v m).contentEl = m.contentEl :=
  (applySiblingFlags_fields v m).2.2.2.2.2.2.1

theorem expandAccordion_noContent (b : Bool) (env : Env) (m : Machine)
    (h : m.contentEl = none \/ m.contentElWrapperHeight = none) :
    expandAccordion b env m = { m with state := .Expanded } := by
  unfold expandAccordion
  rcases h with h | h <;> simp [h]

theorem collapseAccordion_noContent (b : Bool) (env : Env) (m : Machine)
    (h : m.contentEl = none) :
    collapseAccordion b env m = { m with state := .Collapsed } := by
  unfold collapseAccordion
  simp [h]

theorem updateState_expand_path_drained (env : Env) (M : Machine) (g : Group)
    (hg : M.accordionGroupEl = some g)
    (hmem : shouldExpandFor g.value M.value = true)
    (hterm : M.state = .Expanded \/ M.state = .Collapsed)
    (hf : M.pendingFrames = []) (ht : M.pendingTransitions = []) :
    (drain env 3 (updateState false env M)).state = .Expanded ∧
    (drain env 3 (updateState false env M)).pendingFrames = [] ∧
    (drain env 3 (updateState false env M)).pendingTransitions = [] ∧
    (drain env 3 (updateState false env M)).value = M.value ∧
    (drain env 3 (updateState false env M)).subscribed = M.subscribed ∧
    (drain env 3 (updateState false env M)).accordionGroupEl = M.accordionGroupEl := by
  have hupd : updateState false env M
      = { expandAccordion false env M with isNext := false, isPrevious := false } := by
    unfold updateState
    rw [hg]
    simp [hmem]
  rw [hupd]
  cases hce : M.contentEl with
  | none =>
      rw [expandAccordion_noContent false env M (Or.inl hce)]
      rw [drain_of_quiescent env 3 _ (by simp [quiescent, hf, ht])]
      exact ⟨rfl, hf, ht, rfl, rfl, rfl⟩
  | some ce =>
      cases hw : M.contentElWrapperHeight with
      | none =>
          rw [expandAccordion_noContent false env M (Or.inr hw)]
          rw [drain_of_quiescent env 3 _ (by simp [quiescent, hf, ht])]
          exact ⟨rfl, hf, ht, rfl, rfl, rfl⟩
      | some w =>
          rcases hterm with hst | hst
          · rw [expandAccordion_noop env M hst]
            rw [drain_of_quiescent env 3 _ (by simp [quiescent, hf, ht])]
            exact ⟨hst, hf, ht, rfl, rfl, rfl⟩
          · cases hb : shouldAnimate env M.accordionGroupEl with
            | false =>
                rw [expandAccordion_no_anim env M hf hb]
                rw [drain_of_quiescent env 3 _ (by simp [quiescent, hf, ht])]
                exact ⟨rfl, hf, ht, rfl, rfl, rfl⟩
            | true =>
                rw [expandAccordion_animated env M (by simp [hce]) (by simp [hw])
                    (by rw [hst]; intro hq; exact AccordionState.noConfusion hq) hf hb]
                have hdr := drain_expand_run env
                  { { M with
                      pendingFrames := [(M.nextId, FrameTask.expandOuter)],
                      nextId := M.nextId + 1 } with
                    isNext := false, isPrevious := false }
                  M.nextId ce w rfl ht hce hw
                rw [hdr]
                exact ⟨rfl, rfl, rfl, rfl, rfl, rfl⟩

theorem updateState_collapse_path_drained (env : Env) (M : Machine) (g : Group)
    (hg : M.accordionGroupEl = some g)
    (hmem : shouldExpandFor g.value M.value = false)
    (hterm : M.state = .Expanded \/ M.state = .Collapsed)
    (hf : M.pendingFrames = []) (ht : M.pendingTransitions = []) :
    (drain env 3 (updateState false env M)).state = .Collapsed ∧
    (drain env 3 (updateState false env M)).pendingFrames = [] ∧
    (drain env 3 (updateState false env M)).pendingTransitions = [] ∧
    (drain env 3 (updateState false env M)).value = M.value ∧
    (drain env 3 (updateState false env M)).subscribed = M.subscribed ∧
    (drain env 3 (updateState false env M)).accordionGroupEl = M.accordionGroupEl := by
  have hupd : updateState false env M
      = applySiblingFlags g.value (collapseAccordion false env M) := by
    unfold updateState
    rw [hg]
    simp [hmem]
  rw [hupd]
  cases hce : M.contentEl with
  | none =>
      rw [collapseAccordion_noContent false env M hce]
      rw [drain_of_quiescent env 3 _ (by
        simp [quiescent, applySiblingFlags_pendingFrames,
          applySiblingFlags_pendingTransitions, hf, ht])]
      refine ⟨?_, ?_, ?_, ?_, ?_, ?_⟩
      · rw [applySiblingFlags_state]
      · rw [applySiblingFlags_pendingFrames]
        exact hf
      · rw [applySiblingFlags_pendingTransitions]
        exact ht
      · rw [applySiblingFlags_value]
      · rw [applySiblingFlags_subscribed]
      · rw [applySiblingFlags_accordionGroupEl]
  | some ce =>
      rcases hterm with hst | hst
      · cases hb : shouldAnimate env M.accordionGroupEl with
        | false =>
            rw [collapseAccordion_no_anim env M hf hb]
            rw [drain_of_quiescent env 3 _ (by
              simp [quiescent, applySiblingFlags_pendingFrames,
                applySiblingFlags_pendingTransitions, hf, ht])]
            refine ⟨?_, ?_, ?_, ?_, ?_, ?_⟩
            · rw [applySiblingFlags_state]
            · rw [applySiblingFlags_pendingFrames]
              exact hf
            · rw [applySiblingFlags_pendingTransitions]
              exact ht
            · rw [applySiblingFlags_value]
            · rw [applySiblingFlags_subscribed]
            · rw [applySiblingFlags_accordionGroupEl]
        | true =>
            rw [collapseAccordion_animated env M (by simp [hce])
                (by rw [hst]; intro hq; exact AccordionState.noConfusion hq) hf hb]
            have hdr := drain_collapse_run env
              (applySiblingFlags g.value
                { M with
                  pendingFrames := [(M.nextId, FrameTask.collapseOuter)],
                  currentRaf := some M.nextId, nextId := M.nextId + 1 })
              M.nextId ce
              ((applySiblingFlags_pendingFrames _ _).trans rfl)
              ((applySiblingFlags_pendingTransitions _ _).trans ht)
              ((applySiblingFlags_contentEl _ _).trans hce)
            rw [hdr]
            refine ⟨rfl, rfl, rfl, ?_, ?_, ?_⟩
            · exact applySiblingFlags_value _ _
            · exact applySiblingFlags_subscribed _ _
            · exact applySiblingFlags_accordionGroupEl _ _
      · rw [collapseAccordion_noop env M hst]
        rw [drain_of_quiescent env 3 _ (by
          simp [quiescent, applySiblingFlags_pendingFrames,
            applySiblingFlags_pendingTransitions, hf, ht])]
        refine ⟨?_, ?_, ?_, ?_, ?_, ?_⟩
        · rw [applySiblingFlags_state]
          exact hst
        · rw [applySiblingFlags_pendingFrames]
          exact hf
        · rw [applySiblingFlags_pendingTransitions]
          exact ht
        · rw [applySiblingFlags_value]
        · rw [applySiblingFlags_subscribed]
        · rw [applySiblingFlags_accordionGroupEl]

theorem notifyStep_resolves (env : Env) (gv : GroupValue) (m : Machine)
    (h : ReadyMachine m) :
    ReadyMachine (notifyStep env gv m) ∧
    (notifyStep env gv m).state
      = (if shouldExpandFor gv m.value = true then AccordionState.Expanded
         else AccordionState.Collapsed) ∧
    (notifyStep env gv m).value = m.value := by
  obtain ⟨hf, ht, hterm, hs, g, hg⟩ := h
  have hm2 : step env m (.notify gv) = updateState false env (setGroupValue gv m) := by
    unfold step
    rw [hs]
    simp
  have hsg := setGroupValue_fields gv m g hg
  unfold notifyStep
  rw [hm2, hsg]
  cases hmem : shouldExpandFor gv m.value with
  | true =>
      have hres := updateState_expand_path_drained env
        { m with accordionGroupEl := some { g with value := gv } }
        { g with value := gv } rfl hmem hterm hf ht
      refine ⟨⟨hres.2.1, hres.2.2.1, Or.inl hres.1,
        (hres.2.2.2.2.1).trans hs,
        ⟨{ g with value := gv }, hres.2.2.2.2.2⟩⟩, hres.1, hres.2.2.2.1⟩
  | false =>
      have hres := updateState_collapse_path_drained env
        { m with accordionGroupEl := some { g with value := gv } }
        { g with value := gv } rfl hmem hterm hf ht
      refine ⟨⟨hres.2.1, hres.2.2.1, Or.inr hres.1,
        (hres.2.2.2.2.1).trans hs,
        ⟨{ g with value := gv }, hres.2.2.2.2.2⟩⟩, hres.1, hres.2.2.2.1⟩

theorem processNotifications_resolves (env : Env) (m : Machine) (gvs : List GroupValue)
    (gv : GroupValue) (h : ReadyMachine m) :
    (processNotifications env m (gvs ++ [gv])).state
      = (if shouldExpandFor gv m.value = true then AccordionState.Expanded
         else AccordionState.Collapsed) := by
  induction gvs generalizing m with
  | nil =>
      have h2 := (notifyStep_resolves env gv m h).2.1
      simpa [processNotifications] using h2
  | cons a rest ih =>
      obtain ⟨h1, h2, h3⟩ := notifyStep_resolves env a m h
      have hrec := ih (notifyStep env a m) h1
      rw [h3] at hrec
      simpa [processNotifications] using hrec

/-- Claim C1 (amended): each group change notification reads the current
open-set, tests membership of the instance value, and issues an expand
command with both sibling flags cleared when it is a member, a collapse
command with recomputed sibling flags otherwise (see `updateState`).
When every notification is spaced — its scheduled frames and transition
wait run to completion before the next notification arrives — the
resolved state after any such sequence equals membership of the value in
the most recent open-set. The original unconditional claim is false:
when a second notification arrives while the previous command frames are
still pending, the new command can be dropped by the state guard and the
resolved state then disagrees with the latest open-set (see the
counterexample). -/
theorem c1_spaced_notifications (env : Env) (m : Machine) (gvs : List GroupValue)
    (gv : GroupValue) (h : ReadyMachine m) :
    (processNotifications env m (gvs ++ [gv])).state
      = (if shouldExpandFor gv m.value = true then AccordionState.Expanded
         else AccordionState.Collapsed) :=
  processNotifications_resolves env m gvs gv h

/-- Witness for the amended C1: the sample machine processes a spaced
notification opening `b`, then one opening `a` and `b`; its resolved
state is `Expanded`, matching membership of `a` in the last open-set. -/
theorem c1_witness :
    (processNotifications envAnimated sampleMachine
        [GroupValue.multi ["b"], GroupValue.multi ["a", "b"]]).state
      = AccordionState.Expanded := by
  have h := c1_spaced_notifications envAnimated sampleMachine [GroupValue.multi ["b"]]
    (GroupValue.multi ["a", "b"]) ⟨rfl, rfl, Or.inr rfl, rfl, ⟨_, rfl⟩⟩
  exact h

end IonAccordion
